import Mathlib

/-! Atomic UI input routing (Source/Atomic/UI/UIInput.cpp).

A shallow embedding of the input router of the Atomic Game Engine UI:
surface resolution (`UI::FindOffscreenViewAtScreenPosition`,
`UI::GetInternalWidgetAndProjectedPositionFor`), click counting
(`UI::HandleMouseButtonDown`, `UI::HandleTouchBegin`), shortcut recognition
(`InvokeShortcut`), key forwarding (`UI::InvokeKey`) and text input
(`UI::HandleTextInput`).

Conventions of the embedding.
* Pointers are identities (`Nat`); a nullable pointer is an `Option`.
* `float`/`double` quantities are rationals: the arithmetic is exact, rounding
  is not modelled.
* A `HashSet` is the list of its elements in iteration order.
* Calls into the widget library, the scene and the event system are oracles
  over an arbitrary world type; what the code does with them is recorded in
  an effect trace.
* Preprocessor switches are the fields of `Platform`.
-/

namespace Atomic

/-! ## Constants and types declared in headers outside the sources -/

/-- Modelled from the spec: the empty modifier set `TB_MODIFIER_NONE` of the widget
library (`tb_widgets.h` is not among the sources), "no modifier". -/
def TB_MODIFIER_NONE : Nat := 0
/-- Modelled from the spec: the ctrl modifier flag `TB_CTRL` of `tb_widgets.h`. -/
def TB_CTRL : Nat := 1
/-- Modelled from the spec: the shift modifier flag `TB_SHIFT` of `tb_widgets.h`. -/
def TB_SHIFT : Nat := 2
/-- Modelled from the spec: the alt modifier flag `TB_ALT` of `tb_widgets.h`. -/
def TB_ALT : Nat := 4
/-- Modelled from the spec: the platform "super" modifier flag `TB_SUPER` of `tb_widgets.h`. -/
def TB_SUPER : Nat := 8

/-- Modelled from the spec: the shift qualifier bit `QUAL_SHIFT` of `Input/InputEvents.h`
(not among the sources). -/
def QUAL_SHIFT : Nat := 1
/-- Modelled from the spec: the ctrl qualifier bit `QUAL_CTRL` of `Input/InputEvents.h`. -/
def QUAL_CTRL : Nat := 2
/-- Modelled from the spec: the alt qualifier bit `QUAL_ALT` of `Input/InputEvents.h`. -/
def QUAL_ALT : Nat := 4
/-- Modelled from the spec: the secondary mouse button id `MOUSEB_RIGHT` of
`Input/InputEvents.h`. -/
def MOUSEB_RIGHT : Nat := 4

/-- Modelled from the spec: the special keys `SPECIAL_KEY` of `tb_widgets.h` ("enter,
function keys F1–F12, arrows, page up/down, home/end, insert, tab, delete, backspace,
escape"), with `TB_KEY_UNDEFINED` for "no special key". -/
inductive SPECIAL_KEY where
  | TB_KEY_UNDEFINED
  | TB_KEY_UP | TB_KEY_DOWN | TB_KEY_LEFT | TB_KEY_RIGHT
  | TB_KEY_PAGE_UP | TB_KEY_PAGE_DOWN | TB_KEY_HOME | TB_KEY_END
  | TB_KEY_TAB | TB_KEY_BACKSPACE | TB_KEY_INSERT | TB_KEY_DELETE
  | TB_KEY_ENTER | TB_KEY_ESC
  | TB_KEY_F1 | TB_KEY_F2 | TB_KEY_F3 | TB_KEY_F4 | TB_KEY_F5 | TB_KEY_F6
  | TB_KEY_F7 | TB_KEY_F8 | TB_KEY_F9 | TB_KEY_F10 | TB_KEY_F11 | TB_KEY_F12
  deriving DecidableEq, Repr

open SPECIAL_KEY

/-- A widget identifier `TBID`; `TBIDC("copy")` is the string it is made from. -/
abbrev TBID := String

/-- The identity of a `tb::TBWidget` (its address). -/
abbrev TBWidget := Nat

/-- The event type of a `TBWidgetEvent`; the router only builds shortcut events. -/
inductive EVENT_TYPE where
  | EVENT_TYPE_SHORTCUT
  deriving DecidableEq, Repr

/-- The fields of `TBWidgetEvent` that `InvokeShortcut` fills in. -/
structure TBWidgetEvent where
  type : EVENT_TYPE
  modifierkeys : Nat
  ref_id : TBID
  deriving DecidableEq, Repr

/-- The preprocessor switches the file is compiled under. -/
structure Platform where
  /-- Whether `ATOMIC_PLATFORM_WINDOWS` is defined. -/
  ATOMIC_PLATFORM_WINDOWS : Bool
  /-- Whether `__APPLE__` is defined. -/
  APPLE : Bool
  /-- Whether `ATOMIC_PLATFORM_OSX` is defined. -/
  ATOMIC_PLATFORM_OSX : Bool
  deriving DecidableEq, Repr

/-! ## Modifier keys and ASCII upper-casing -/

/-- `GetModifierKeys(int qualifiers, bool superKey)`. -/
def GetModifierKeys (qualifiers : Nat) (superKey : Bool) : Nat :=
  let code := TB_MODIFIER_NONE
  let code := if qualifiers &&& QUAL_ALT ≠ 0 then code ||| TB_ALT else code
  let code := if qualifiers &&& QUAL_CTRL ≠ 0 then code ||| TB_CTRL else code
  let code := if qualifiers &&& QUAL_SHIFT ≠ 0 then code ||| TB_SHIFT else code
  let code := if superKey then code ||| TB_SUPER else code
  code

/-- `toupr_ascii(int ascii)`: the upper case of an ASCII character
(`'a'` = 97, `'z'` = 122, `'A'` = 65). -/
def toupr_ascii (ascii : Int) : Int :=
  if ascii ≥ 97 ∧ ascii ≤ 122 then ascii + 65 - 97 else ascii

/-! ## The shortcut table of `InvokeShortcut` -/

/-- The first half of `InvokeShortcut` (up to the `else return false;` that ends the
table): the guard and the cascade that selects the shortcut id. `none` is the
`return false` of the guard or of the final `else`; `some id` is the id the second
half goes on with. The two branches under `#ifdef ATOMIC_PLATFORM_OSX` and the two
under its `#else` are guarded by the switch. Letters are their ASCII codes: `'X'` 88, `'C'` 67, `'V'` 86,
`'A'` 65, `'Z'` 90, `'Y'` 89, `'N'` 78, `'O'` 79, `'S'` 83, `'W'` 87, `'F'` 70,
`'G'` 71, `'P'` 80. -/
def InvokeShortcut_id (P : Platform) (key : Int) (special_key : SPECIAL_KEY)
    (modifierkeys : Nat) (down : Bool) : Option TBID :=
  let shortcut_key : Bool :=
    if P.APPLE then decide (modifierkeys &&& TB_SUPER ≠ 0)
    else decide (modifierkeys &&& TB_CTRL ≠ 0)
  if !down || (!shortcut_key && special_key == TB_KEY_UNDEFINED) then none
  else
    let reverse_key : Bool := decide (modifierkeys &&& TB_SHIFT ≠ 0)
    let upper_key := toupr_ascii key
    if upper_key = 88 then some "cut"
    else if upper_key = 67 ∨ special_key = TB_KEY_INSERT then some "copy"
    else if upper_key = 86 ∨ (special_key = TB_KEY_INSERT ∧ reverse_key = true) then some "paste"
    else if upper_key = 65 then some "selectall"
    else if upper_key = 90 ∨ upper_key = 89 then
      let undo : Bool := decide (upper_key = 90)
      let undo := if reverse_key then !undo else undo
      some (if undo then "undo" else "redo")
    else if upper_key = 78 then some "new"
    else if upper_key = 79 then some "open"
    else if upper_key = 83 then some "save"
    else if upper_key = 87 then some "close"
    else if upper_key = 70 then some "find"
    else if P.ATOMIC_PLATFORM_OSX = true ∧ upper_key = 71 ∧ modifierkeys &&& TB_SHIFT ≠ 0 then
      some "findprev"
    else if P.ATOMIC_PLATFORM_OSX = true ∧ upper_key = 71 then some "findnext"
    else if P.ATOMIC_PLATFORM_OSX = false ∧ special_key = TB_KEY_F3 ∧ modifierkeys &&& TB_SHIFT ≠ 0 then
      some "findprev"
    else if P.ATOMIC_PLATFORM_OSX = false ∧ special_key = TB_KEY_F3 then some "findnext"
    else if upper_key = 80 then some "play"
    else if special_key = TB_KEY_PAGE_UP then some "prev_doc"
    else if special_key = TB_KEY_PAGE_DOWN then some "next_doc"
    else none

/-! ## Geometry and the scene -/

/-- The engine's `IntVector2`. -/
structure IntVector2 where
  x_ : Int
  y_ : Int
  deriving DecidableEq, Repr

/-- The engine's `Vector2`, with exact components. -/
structure Vector2 where
  x_ : ℚ
  y_ : ℚ
  deriving DecidableEq, Repr

/-- The engine's `IntRect`. -/
structure IntRect where
  left_ : Int
  top_ : Int
  right_ : Int
  bottom_ : Int
  deriving DecidableEq, Repr

/-- The constant `IntRect::ZERO`. -/
def IntRect.ZERO : IntRect := ⟨0, 0, 0, 0⟩

/-- The method `IntRect::Width()`. -/
def IntRect.Width (r : IntRect) : Int := r.right_ - r.left_

/-- The method `IntRect::Height()`. -/
def IntRect.Height (r : IntRect) : Int := r.bottom_ - r.top_

/-- Modelled from the spec: `IntRect::IsInside` of `Math/Rect.h` (not among the sources),
which tells whether the point is inside the "declared screen rectangle" or the rectangle
"excludes the point"; the left and top edges are inside, the right and bottom edges are
outside. -/
def IntRect.IsInside (r : IntRect) (point : IntVector2) : Bool :=
  !(decide (point.x_ < r.left_) || decide (point.y_ < r.top_) ||
    decide (point.x_ ≥ r.right_) || decide (point.y_ ≥ r.bottom_))

/-- The identity of a `Camera`. -/
abbrev Camera := Nat
/-- The identity of an `Octree`. -/
abbrev Octree := Nat
/-- The identity of a `Drawable`. -/
abbrev Drawable := Nat

/-- A `Ray`: origin and direction. -/
structure Ray where
  origin_ : ℚ × ℚ × ℚ
  direction_ : ℚ × ℚ × ℚ
  deriving DecidableEq

/-- The fields of `RayQueryResult` the resolver reads. -/
structure RayQueryResult where
  drawable_ : Drawable
  textureUV_ : Vector2
  deriving DecidableEq

/-- The scene and rendering layer as the resolver uses it: `Camera::GetScreenRay` and the
result vector that `Octree::RaycastSingle` leaves in a `RayOctreeQuery` built with
`RAY_TRIANGLE_UV`, `M_INFINITY`, `DRAWABLE_GEOMETRY`, `DEFAULT_VIEWMASK`. -/
structure Scene where
  GetScreenRay : Camera → ℚ → ℚ → Ray
  RaycastSingle : Octree → Ray → List RayQueryResult

/-- The conversion of a `float` to `int`: truncation toward zero. -/
def truncToInt (q : ℚ) : Int := if 0 ≤ q then ⌊q⌋ else ⌈q⌉

/-- The members of `UIOffscreenView` the router reads. -/
structure UIOffscreenView where
  inputRect_ : IntRect
  inputCamera_ : Option Camera
  inputOctree_ : Option Octree
  inputDrawable_ : Option Drawable
  /-- Value of `GetWidth()`. -/
  GetWidth : Int
  /-- Value of `GetHeight()`. -/
  GetHeight : Int
  /-- Value of `GetInternalWidget()`. -/
  GetInternalWidget : TBWidget
  deriving DecidableEq

/-- The members of `UI` the router reads. `offscreenViews_` lists the `HashSet` in
iteration order; `graphicsWidth`, `graphicsHeight` are `graphics_->GetWidth()` and
`graphics_->GetHeight()`. -/
structure UI where
  inputDisabled_ : Bool
  keyboardDisabled_ : Bool
  consoleVisible_ : Bool
  offscreenViews_ : List UIOffscreenView
  rootWidget_ : TBWidget
  graphicsWidth : Int
  graphicsHeight : Int

/-! ## Surface resolution -/

/-- The two statements of `UI::FindOffscreenViewAtScreenPosition` that compute `normPos`:
the offset of the point from the corner of the rectangle, divided by the size of the display
when the rectangle is the default one and by the size of the rectangle otherwise. -/
def FindOffscreenViewAtScreenPosition_normPos (ui : UI) (rect : IntRect)
    (screenPos : IntVector2) : Vector2 :=
  let rectIsDefault : Bool := decide (rect = IntRect.ZERO)
  let normPos : Vector2 :=
    ⟨((screenPos.x_ - rect.left_ : Int) : ℚ), ((screenPos.y_ - rect.top_ : Int) : ℚ)⟩
  let d : Vector2 :=
    if rectIsDefault then ⟨(ui.graphicsWidth : ℚ), (ui.graphicsHeight : ℚ)⟩
    else ⟨(rect.Width : ℚ), (rect.Height : ℚ)⟩
  ⟨normPos.x_ / d.x_, normPos.y_ / d.y_⟩

/-- The ray query of `UI::FindOffscreenViewAtScreenPosition` for one surface: the contents
of `queryResultVector` after `octree->RaycastSingle(query)`. -/
def FindOffscreenViewAtScreenPosition_query (scene : Scene) (ui : UI) (screenPos : IntVector2)
    (rect : IntRect) (camera : Camera) (octree : Octree) : List RayQueryResult :=
  let normPos := FindOffscreenViewAtScreenPosition_normPos ui rect screenPos
  let ray := scene.GetScreenRay camera normPos.x_ normPos.y_
  scene.RaycastSingle octree ray

/-- The body of the loop of `UI::FindOffscreenViewAtScreenPosition` for one surface:
`none` is a `continue`, `some p` is the value written to `viewPos` before
`return osView`. -/
def FindOffscreenViewAtScreenPosition_body (scene : Scene) (ui : UI) (screenPos : IntVector2)
    (osView : UIOffscreenView) : Option IntVector2 :=
  let rect := osView.inputRect_
  let rectIsDefault : Bool := decide (rect = IntRect.ZERO)
  match osView.inputCamera_, osView.inputOctree_, osView.inputDrawable_ with
  | some camera, some octree, some drawable =>
    if !rectIsDefault && !rect.IsInside screenPos then none
    else
      match FindOffscreenViewAtScreenPosition_query scene ui screenPos rect camera octree with
      | [] => none
      | queryResult :: _ =>
        if queryResult.drawable_ ≠ drawable then none
        else
          let uv := queryResult.textureUV_
          some ⟨truncToInt (uv.x_ * (osView.GetWidth : ℚ)),
            truncToInt (uv.y_ * (osView.GetHeight : ℚ))⟩
  | _, _, _ => none

/-- The loop of `UI::FindOffscreenViewAtScreenPosition` over the surfaces still to visit;
`viewPos` is the caller's variable, written only on acceptance. -/
def FindOffscreenViewAtScreenPosition_loop (scene : Scene) (ui : UI) (screenPos : IntVector2)
    (viewPos : IntVector2) : List UIOffscreenView → Option UIOffscreenView × IntVector2
  | [] => (none, viewPos)
  | osView :: rest =>
    match FindOffscreenViewAtScreenPosition_body scene ui screenPos osView with
    | some p => (some osView, p)
    | none => FindOffscreenViewAtScreenPosition_loop scene ui screenPos viewPos rest

/-- `UI::FindOffscreenViewAtScreenPosition(screenPos, viewPos)`: the surface returned
(`none` for `nullptr`) and the value of `viewPos` on return. -/
def UI.FindOffscreenViewAtScreenPosition (scene : Scene) (ui : UI) (screenPos : IntVector2)
    (viewPos : IntVector2) : Option UIOffscreenView × IntVector2 :=
  FindOffscreenViewAtScreenPosition_loop scene ui screenPos viewPos ui.offscreenViews_

/-- `UI::GetInternalWidgetAndProjectedPositionFor(screenPos, viewPos)`: the widget returned
and the value of `viewPos` on return. -/
def UI.GetInternalWidgetAndProjectedPositionFor (scene : Scene) (ui : UI)
    (screenPos : IntVector2) (viewPos : IntVector2) : TBWidget × IntVector2 :=
  match ui.FindOffscreenViewAtScreenPosition scene screenPos viewPos with
  | (some osView, viewPos) => (osView.GetInternalWidget, viewPos)
  | (none, _) => (ui.rootWidget_, screenPos)

/-! ## Button-down and touch-begin: the click counters -/

/-- The keys whose state the pointer handlers query with `Input::GetKeyDown`. -/
inductive Key where
  | KEY_LCTRL | KEY_RCTRL | KEY_LGUI | KEY_RGUI
  deriving DecidableEq, Repr

/-- The live state of the `Input` subsystem. -/
structure Input where
  GetMousePosition : IntVector2
  GetQualifiers : Nat
  GetKeyDown : Key → Bool

/-- What a handler reads from the engine while it runs: the scene, the input subsystem and
`Time::GetElapsedTime()` in seconds. -/
structure Engine where
  scene : Scene
  input : Input
  GetElapsedTime : ℚ

/-- The pair of function-local statics `last_time`, `counter` of a handler. -/
structure ClickStatics where
  last_time : ℚ
  counter : Int
  deriving DecidableEq

/-- The statics of the file: the pair declared in `UI::HandleMouseButtonDown` and the pair
declared in `UI::HandleTouchBegin`. -/
structure Statics where
  mouseButtonDown : ClickStatics
  touchBegin : ClickStatics
  deriving DecidableEq

/-- The initial values: `static double last_time = 0; static int counter = 1;` in
both handlers. -/
def Statics.initial : Statics := ⟨⟨0, 1⟩, ⟨0, 1⟩⟩

/-- A value of type `int` after an arithmetic step, in two's complement. -/
def wrapInt (n : Int) : Int := (n + 2147483648) % 4294967296 - 2147483648

/-- The pointer-down entry points of the widget library, with the arguments of the call. -/
inductive PointerCall where
  | InvokeRightPointerDown (widget : TBWidget) (x y : Int) (click_count : Int)
      (modifierkeys : Nat)
  | InvokePointerDown (widget : TBWidget) (x y : Int) (click_count : Int)
      (modifierkeys : Nat) (touch : Bool) (touchId : Option Int)
  deriving DecidableEq

/-- The click count argument of a pointer-down call. -/
def PointerCall.click_count : PointerCall → Int
  | .InvokeRightPointerDown _ _ _ c _ => c
  | .InvokePointerDown _ _ _ c _ _ _ => c

/-- `UI::HandleMouseButtonDown`, with `button` the `P_BUTTON` of the event data: the call
made into the widget library (`none` when the handler returns at its guard) and the
statics afterwards. -/
def UI.HandleMouseButtonDown (P : Platform) (ui : UI) (engine : Engine) (button : Nat)
    (statics : Statics) : Option PointerCall × Statics :=
  if ui.inputDisabled_ || ui.consoleVisible_ then (none, statics)
  else
    let pos := engine.input.GetMousePosition
    let input := engine.input
    let qualifiers := input.GetQualifiers
    let superdown : Bool :=
      if P.ATOMIC_PLATFORM_WINDOWS then input.GetKeyDown .KEY_LCTRL || input.GetKeyDown .KEY_RCTRL
      else input.GetKeyDown .KEY_LGUI || input.GetKeyDown .KEY_RGUI
    let mod := GetModifierKeys qualifiers superdown
    let last_time := statics.mouseButtonDown.last_time
    let counter := statics.mouseButtonDown.counter
    let time : ℚ := engine.GetElapsedTime * 1000
    let counter := if time < last_time + 600 then wrapInt (counter + 1) else 1
    let last_time := time
    let (widget, viewPos) :=
      ui.GetInternalWidgetAndProjectedPositionFor engine.scene pos ⟨0, 0⟩
    let call :=
      if button = MOUSEB_RIGHT then
        PointerCall.InvokeRightPointerDown widget viewPos.x_ viewPos.y_ counter mod
      else PointerCall.InvokePointerDown widget viewPos.x_ viewPos.y_ counter mod false none
    (some call, { statics with mouseButtonDown := ⟨last_time, counter⟩ })

/-- `UI::HandleTouchBegin`, with `touchId`, `x`, `y` the `P_TOUCHID`, `P_X`, `P_Y` of the
event data. -/
def UI.HandleTouchBegin (ui : UI) (engine : Engine) (touchId : Int) (x y : Int)
    (statics : Statics) : Option PointerCall × Statics :=
  if ui.inputDisabled_ || ui.consoleVisible_ then (none, statics)
  else
    let pos : IntVector2 := ⟨x, y⟩
    let last_time := statics.touchBegin.last_time
    let counter := statics.touchBegin.counter
    let time : ℚ := engine.GetElapsedTime * 1000
    let counter := if time < last_time + 600 then wrapInt (counter + 1) else 1
    let last_time := time
    let (widget, viewPos) :=
      ui.GetInternalWidgetAndProjectedPositionFor engine.scene pos ⟨0, 0⟩
    (some (PointerCall.InvokePointerDown widget viewPos.x_ viewPos.y_ counter
      TB_MODIFIER_NONE true (some touchId)),
     { statics with touchBegin := ⟨last_time, counter⟩ })

/-! ## Shortcuts, keys and text -/

/-- The events the router sends with `SendEvent`: `E_UIUNHANDLEDSHORTCUT` with its
`P_REFID`. -/
inductive UIEvent where
  | E_UIUNHANDLEDSHORTCUT (refid : TBID)
  deriving DecidableEq, Repr

/-- The widget library and the event system seen from the key path, over a world `σ`.
`focusPath` is `TBWidget::focused_widget` followed by its successive `GetParent()`s up to
the root of its tree (empty when `focused_widget` is null); `GetDelegate` tells whether
`GetDelegate()` of a widget is non-null. `InvokeEvent` and `InvokeKey` give the result of
the call on a widget and the world it leaves; `SendEvent` gives the world after the
subscribers of an event have run. -/
structure TBLib (σ : Type) where
  focusPath : σ → List TBWidget
  GetDelegate : σ → TBWidget → Bool
  InvokeEvent : TBWidget → TBWidgetEvent → σ → Bool × σ
  InvokeKey : TBWidget → Int → SPECIAL_KEY → Nat → Bool → σ → Bool × σ
  SendEvent : UIEvent → σ → σ

/-- One observable step of the key path. -/
inductive Effect where
  /-- Entry into `UI::InvokeKey` with its arguments. -/
  | UI_InvokeKey (key : Nat) (special_key : SPECIAL_KEY) (modifierkeys : Nat) (keydown : Bool)
  /-- The call `eventWidget->InvokeEvent(ev)` and what it returned. -/
  | InvokeEvent (widget : TBWidget) (ev : TBWidgetEvent) (handled : Bool)
  /-- The call `ui->SendEvent(...)`. -/
  | SendEvent (e : UIEvent)
  /-- The call `widget->InvokeKey(...)` and what it returned. -/
  | InvokeKey (widget : TBWidget) (key : Int) (special_key : SPECIAL_KEY) (modifierkeys : Nat)
      (down : Bool) (consumed : Bool)
  deriving DecidableEq, Repr

/-- The loop `while (eventWidget && !eventWidget->GetDelegate()) eventWidget =
eventWidget->GetParent();` along the path from the focused widget to its root. -/
def walkToDelegate (hasDelegate : TBWidget → Bool) : List TBWidget → Option TBWidget
  | [] => none
  | eventWidget :: parents =>
    if !hasDelegate eventWidget then walkToDelegate hasDelegate parents else some eventWidget

/-- The result of a call on the key path: the value returned, the effects in order, and
the world afterwards. -/
structure Outcome (σ : Type) where
  ret : Bool
  trace : List Effect
  world : σ

/-- `InvokeShortcut(ui, key, special_key, modifierkeys, down)`. -/
def InvokeShortcut {σ : Type} (P : Platform) (lib : TBLib σ) (key : Int)
    (special_key : SPECIAL_KEY) (modifierkeys : Nat) (down : Bool) (w : σ) : Outcome σ :=
  match InvokeShortcut_id P key special_key modifierkeys down with
  | none => ⟨false, [], w⟩
  | some id =>
    let ev : TBWidgetEvent := ⟨.EVENT_TYPE_SHORTCUT, modifierkeys, id⟩
    let eventWidget : Option TBWidget := (lib.focusPath w).head?
    let eventWidget :=
      if id = "save" ∨ id = "close" then walkToDelegate (lib.GetDelegate w) (lib.focusPath w)
      else eventWidget
    match eventWidget with
    | none =>
      ⟨false, [.SendEvent (.E_UIUNHANDLEDSHORTCUT id)],
        lib.SendEvent (.E_UIUNHANDLEDSHORTCUT id) w⟩
    | some widget =>
      let r := lib.InvokeEvent widget ev w
      if !r.1 then
        ⟨false, [.InvokeEvent widget ev r.1, .SendEvent (.E_UIUNHANDLEDSHORTCUT id)],
          lib.SendEvent (.E_UIUNHANDLEDSHORTCUT id) r.2⟩
      else ⟨true, [.InvokeEvent widget ev r.1], r.2⟩

/-- The conversion of an `unsigned` argument to the `int` parameter it is passed for. -/
def intOfUnsigned (u : Nat) : Int :=
  if u % 4294967296 < 2147483648 then (u % 4294967296 : Nat) else ((u % 4294967296 : Nat) : Int) - 4294967296

/-- The loop of `UI::InvokeKey` over the surfaces still to visit, followed by the final
`return rootWidget_->InvokeKey(...)`. -/
def UI.InvokeKey_loop {σ : Type} (lib : TBLib σ) (ui : UI) (key : Nat)
    (special_key : SPECIAL_KEY) (modifierkeys : Nat) (keydown : Bool) :
    List UIOffscreenView → σ → Outcome σ
  | [], w =>
    let r := lib.InvokeKey ui.rootWidget_ (intOfUnsigned key) special_key modifierkeys keydown w
    ⟨r.1, [.InvokeKey ui.rootWidget_ (intOfUnsigned key) special_key modifierkeys keydown r.1], r.2⟩
  | osView :: rest, w =>
    if osView.inputCamera_.isNone || osView.inputOctree_.isNone || osView.inputDrawable_.isNone then
      UI.InvokeKey_loop lib ui key special_key modifierkeys keydown rest w
    else
      let r := lib.InvokeKey osView.GetInternalWidget (intOfUnsigned key) special_key
        modifierkeys keydown w
      let e := Effect.InvokeKey osView.GetInternalWidget (intOfUnsigned key) special_key
        modifierkeys keydown r.1
      if r.1 then ⟨true, [e], r.2⟩
      else
        let o := UI.InvokeKey_loop lib ui key special_key modifierkeys keydown rest r.2
        ⟨o.ret, e :: o.trace, o.world⟩

/-- `UI::InvokeKey(key, special_key, modifierkeys, keydown)`. The trace starts with the
record of the call itself. -/
def UI.InvokeKey {σ : Type} (P : Platform) (lib : TBLib σ) (ui : UI) (key : Nat)
    (special_key : SPECIAL_KEY) (modifierkeys : Nat) (keydown : Bool) (w : σ) : Outcome σ :=
  let s := InvokeShortcut P lib (intOfUnsigned key) special_key modifierkeys keydown w
  if s.ret then ⟨true, .UI_InvokeKey key special_key modifierkeys keydown :: s.trace, s.world⟩
  else
    let o := UI.InvokeKey_loop lib ui key special_key modifierkeys keydown ui.offscreenViews_ s.world
    ⟨o.ret, .UI_InvokeKey key special_key modifierkeys keydown :: (s.trace ++ o.trace), o.world⟩

/-- A widget library in which no widget holds focus and no widget consumes anything. -/
def TBLib.idle : TBLib Unit where
  focusPath := fun _ => []
  GetDelegate := fun _ _ => false
  InvokeEvent := fun _ _ w => (false, w)
  InvokeKey := fun _ _ _ _ _ w => (false, w)
  SendEvent := fun _ w => w

/-- A widget library over a constant world: widget 7 holds focus, its parent is 3 and the
root of its tree is 1; only 3 exposes a delegate and only 3 accepts shortcut events; only
widget 2 consumes keys. -/
def TBLib.editor : TBLib Unit where
  focusPath := fun _ => [7, 3, 1]
  GetDelegate := fun _ t => t == 3
  InvokeEvent := fun t _ w => (t == 3, w)
  InvokeKey := fun t _ _ _ _ w => (t == 2, w)
  SendEvent := fun _ w => w

/-- A surface of 256 by 256 pixels with the default input rectangle, octree 1 and target
drawable 1 but no camera, whose internal widget is 2. -/
def surfaceWithoutCamera : UIOffscreenView := ⟨IntRect.ZERO, none, some 1, some 1, 256, 256, 2⟩

/-- A surface of 256 by 256 pixels with the default input rectangle, camera 1, octree 1,
target drawable `drawable` and internal widget `widget`. -/
def surfaceFullscreen (drawable : Drawable) (widget : TBWidget) : UIOffscreenView :=
  ⟨IntRect.ZERO, some 1, some 1, some drawable, 256, 256, widget⟩

/-- A router with input enabled, root widget 1, an 800 by 600 display and the given
surfaces. -/
def UI.enabled (views : List UIOffscreenView) : UI := ⟨false, false, false, views, 1, 800, 600⟩

/-- A router with four surfaces: one without camera (widget 2), then the surfaces of
widgets 4, 2 and 6. -/
def UI.fourSurfaces : UI :=
  UI.enabled [surfaceWithoutCamera, surfaceFullscreen 1 4, surfaceFullscreen 2 2,
    surfaceFullscreen 3 6]

/-- A scene in which every octree holds one drawable, of the same identity as the octree,
and every ray hits it at texture coordinate `uv`. -/
def Scene.flat (uv : Vector2) : Scene where
  GetScreenRay := fun _ x y => ⟨(x, y, 0), (0, 0, 1)⟩
  RaycastSingle := fun octree _ => [⟨octree, uv⟩]

/-- A surface with input rectangle `rect` and the given size, whose camera, octree, target
drawable and internal widget all have the identity `n`. -/
def surfaceAt (rect : IntRect) (width height : Int) (n : Nat) : UIOffscreenView :=
  ⟨rect, some n, some n, some n, width, height, n⟩

/-- A router with three surfaces: one without camera, one whose rectangle is the square
from (0, 0) to (100, 100), and one with the default rectangle whose target drawable 9 is not
the drawable 1 of its octree. -/
def UI.threeSurfaces : UI :=
  UI.enabled [surfaceWithoutCamera, surfaceAt ⟨0, 0, 100, 100⟩ 256 256 3,
    surfaceFullscreen 9 4]

/-- An engine state with an idle input subsystem (mouse at (10, 10), no qualifier,
no key down) at the elapsed time `t`, in seconds. -/
def Engine.atTime (t : ℚ) : Engine :=
  ⟨Scene.flat ⟨0, 0⟩, ⟨⟨10, 10⟩, 0, fun _ => false⟩, t⟩

/-- The platform with none of the switches defined. -/
def Platform.other : Platform := ⟨false, false, false⟩

/-! ## Vocabulary of the statements -/

/-- The platform shortcut modifier is held: `TB_SUPER` under `__APPLE__`, `TB_CTRL`
elsewhere. -/
def shortcutModifierHeld (P : Platform) (modifierkeys : Nat) : Prop :=
  if P.APPLE then modifierkeys &&& TB_SUPER ≠ 0 else modifierkeys &&& TB_CTRL ≠ 0

instance (P : Platform) (m : Nat) : Decidable (shortcutModifierHeld P m) := by
  unfold shortcutModifierHeld; infer_instance

/-- The upper-cased letters that the table of `InvokeShortcut` tests for:
X C V A Z Y N O S W F G P. -/
def tableLetters : List Int := [88, 67, 86, 65, 90, 89, 78, 79, 83, 87, 70, 71, 80]

/-- The widget a recognised shortcut is delivered to: the focused widget, or for "save" and
"close" the nearest widget from the focused one upward that exposes a delegate. -/
def IsShortcutTarget {σ : Type} (lib : TBLib σ) (w : σ) (id : TBID) (t : TBWidget) : Prop :=
  (¬ (id = "save" ∨ id = "close") ∧ (lib.focusPath w).head? = some t) ∨
  ((id = "save" ∨ id = "close") ∧ ∃ pre post, lib.focusPath w = pre ++ t :: post ∧
    (∀ x ∈ pre, lib.GetDelegate w x = false) ∧ lib.GetDelegate w t = true)

/-- No widget can be the target of a recognised shortcut: no widget holds focus, or the
shortcut is "save" or "close" and no widget from the focused one upward exposes a
delegate. -/
def NoShortcutTarget {σ : Type} (lib : TBLib σ) (w : σ) (id : TBID) : Prop :=
  lib.focusPath w = [] ∨
  ((id = "save" ∨ id = "close") ∧ ∀ x ∈ lib.focusPath w, lib.GetDelegate w x = false)

/-- A surface that `UI::InvokeKey` offers keys to: it has a camera, an octree and a
drawable. -/
def keyEligible (v : UIOffscreenView) : Bool :=
  v.inputCamera_.isSome && v.inputOctree_.isSome && v.inputDrawable_.isSome

/-- The widgets in the order in which a key can be offered to them: the internal widgets of
the eligible surfaces in registry order, then the main root widget. -/
def keyWidgets (root : TBWidget) (views : List UIOffscreenView) : List TBWidget :=
  (views.filter keyEligible).map (fun v => v.GetInternalWidget) ++ [root]

/-- The resolver passes over a surface for a point: the surface is missing a camera, an
octree or a drawable, or its rectangle is not the default one and excludes the point, or
its ray query is empty, or the nearest hit is not its target drawable. -/
def surfaceRejected (scene : Scene) (ui : UI) (screenPos : IntVector2)
    (v : UIOffscreenView) : Prop :=
  v.inputCamera_ = none ∨ v.inputOctree_ = none ∨ v.inputDrawable_ = none ∨
  (v.inputRect_ ≠ IntRect.ZERO ∧ v.inputRect_.IsInside screenPos = false) ∨
  ∃ camera octree drawable,
    v.inputCamera_ = some camera ∧ v.inputOctree_ = some octree ∧
    v.inputDrawable_ = some drawable ∧
    (FindOffscreenViewAtScreenPosition_query scene ui screenPos v.inputRect_ camera octree = [] ∨
     ∃ r rest,
      FindOffscreenViewAtScreenPosition_query scene ui screenPos v.inputRect_ camera octree =
        r :: rest ∧ r.drawable_ ≠ drawable)

/-- A button-down or touch-begin event together with everything its handler reads. -/
inductive PointerEvent where
  | mouseButtonDown (ui : UI) (engine : Engine) (button : Nat)
  | touchBegin (ui : UI) (engine : Engine) (touchId x y : Int)

/-- The event is a mouse button-down. -/
def PointerEvent.isMouse : PointerEvent → Bool
  | .mouseButtonDown _ _ _ => true
  | .touchBegin _ _ _ _ _ => false

/-- The event is a touch-begin. -/
def PointerEvent.isTouch : PointerEvent → Bool
  | .mouseButtonDown _ _ _ => false
  | .touchBegin _ _ _ _ _ => true

/-- The handler that the event system runs for an event. -/
def PointerEvent.handle (P : Platform) : PointerEvent → Statics → Option PointerCall × Statics
  | .mouseButtonDown ui engine button, st => ui.HandleMouseButtonDown P engine button st
  | .touchBegin ui engine touchId x y, st => ui.HandleTouchBegin engine touchId x y st

/-- The events of a sequence, handled in order, each with the call it was delivered with. -/
def deliveries (P : Platform) : Statics → List PointerEvent →
    List (PointerEvent × Option PointerCall)
  | _, [] => []
  | st, e :: es => (e, (e.handle P st).1) :: deliveries P (e.handle P st).2 es

/-! ## Upper-casing and the shortcut table: proofs -/

theorem toupr_ascii_lower (key : Int) (h1 : 97 ≤ key) (h2 : key ≤ 122) :
    toupr_ascii key = key - 32 := by
  unfold toupr_ascii
  rw [if_pos ⟨h1, h2⟩]; omega

theorem toupr_ascii_not_lower (key : Int) (h : key < 97 ∨ 122 < key) :
    toupr_ascii key = key := by
  unfold toupr_ascii
  rw [if_neg]; omega

/-- The id selected depends on the key only through its upper case. -/
theorem InvokeShortcut_id_congr (P : Platform) (key key2 : Int) (special_key : SPECIAL_KEY)
    (modifierkeys : Nat) (down : Bool) (h : toupr_ascii key = toupr_ascii key2) :
    InvokeShortcut_id P key special_key modifierkeys down =
      InvokeShortcut_id P key2 special_key modifierkeys down := by
  unfold InvokeShortcut_id
  rw [h]

/-- C5: on a key-down with the platform shortcut modifier held and no special key, the
id selected by `InvokeShortcut` is the same for a lower-case ASCII letter and its upper
case; `c`/`C` select "copy" with or without shift; `z`/`Z` select "undo" without shift and
"redo" with it; `y`/`Y` select "redo" without shift and "undo" with it. -/
theorem C5_shortcut_letters (P : Platform) (key : Int) (modifierkeys : Nat)
    (hmod : shortcutModifierHeld P modifierkeys) :
    (97 ≤ key → key ≤ 122 →
      InvokeShortcut_id P key TB_KEY_UNDEFINED modifierkeys true =
        InvokeShortcut_id P (key - 32) TB_KEY_UNDEFINED modifierkeys true) ∧
    (key = 99 ∨ key = 67 →
      InvokeShortcut_id P key TB_KEY_UNDEFINED modifierkeys true = some "copy") ∧
    (key = 122 ∨ key = 90 →
      InvokeShortcut_id P key TB_KEY_UNDEFINED modifierkeys true =
        some (if modifierkeys &&& TB_SHIFT ≠ 0 then "redo" else "undo")) ∧
    (key = 121 ∨ key = 89 →
      InvokeShortcut_id P key TB_KEY_UNDEFINED modifierkeys true =
        some (if modifierkeys &&& TB_SHIFT ≠ 0 then "undo" else "redo")) := by
  have hg : (if P.APPLE then decide (modifierkeys &&& TB_SUPER ≠ 0)
      else decide (modifierkeys &&& TB_CTRL ≠ 0)) = true := by
    unfold shortcutModifierHeld at hmod
    cases hP : P.APPLE <;> simp_all
  refine ⟨?_, ?_, ?_, ?_⟩
  · intro h1 h2
    apply InvokeShortcut_id_congr
    rw [toupr_ascii_lower key h1 h2, toupr_ascii_not_lower (key - 32) (by omega)]
  · intro h
    have hu : toupr_ascii key = 67 := by
      rcases h with h | h <;> subst h <;> decide
    simp only [InvokeShortcut_id, hg, hu]
    simp
  · intro h
    have hu : toupr_ascii key = 90 := by
      rcases h with h | h <;> subst h <;> decide
    simp only [InvokeShortcut_id, hg, hu]
    by_cases hs : modifierkeys &&& TB_SHIFT = 0 <;> simp [hs]
  · intro h
    have hu : toupr_ascii key = 89 := by
      rcases h with h | h <;> subst h <;> decide
    simp only [InvokeShortcut_id, hg, hu]
    by_cases hs : modifierkeys &&& TB_SHIFT = 0 <;> simp [hs]

/-- A use of C5: ctrl+shift+`z` on a platform without `__APPLE__` selects "redo". -/
theorem C5_shortcut_letters_witness :
    shortcutModifierHeld Platform.other (TB_CTRL ||| TB_SHIFT) ∧
      InvokeShortcut_id Platform.other 122 TB_KEY_UNDEFINED (TB_CTRL ||| TB_SHIFT) true =
        some "redo" :=
  ⟨by decide,
   ((C5_shortcut_letters Platform.other 122 (TB_CTRL ||| TB_SHIFT) (by decide)).2.2.1
      (Or.inl rfl)).trans (by decide)⟩

/-- A conditional differs from a value that both of its branches differ from. -/
theorem ite_ne_of_ne {α : Type} (c : Prop) [Decidable c] (a b x : α) (ha : a ≠ x)
    (hb : b ≠ x) : (if c then a else b) ≠ x := by
  by_cases h : c
  · rw [if_pos h]; exact ha
  · rw [if_neg h]; exact hb

/-- C10: in the table of `InvokeShortcut` the id "paste" is selected only when the
upper-cased key is `V`; on every key-down whose special key is Insert and whose upper-cased
key is not `X` the id selected is "copy", whatever the modifiers; so no input with the
special key Insert, shift held or not, selects "paste". -/
theorem C10_insert_never_paste (P : Platform) (key : Int) (special_key : SPECIAL_KEY)
    (modifierkeys : Nat) (down : Bool) :
    (InvokeShortcut_id P key special_key modifierkeys down = some "paste" →
      toupr_ascii key = 86) ∧
    (toupr_ascii key ≠ 88 →
      InvokeShortcut_id P key TB_KEY_INSERT modifierkeys true = some "copy") ∧
    InvokeShortcut_id P key TB_KEY_INSERT modifierkeys down ≠ some "paste" := by
  have hcopy : ∀ u : Int, u ≠ 88 → toupr_ascii key = u →
      InvokeShortcut_id P key TB_KEY_INSERT modifierkeys true = some "copy" := by
    intro u hne hu
    unfold InvokeShortcut_id
    rw [hu]
    generalize (modifierkeys &&& TB_SHIFT) = s
    generalize (if P.APPLE then decide (modifierkeys &&& TB_SUPER ≠ 0)
      else decide (modifierkeys &&& TB_CTRL ≠ 0)) = g
    simp [hne]
  refine ⟨?_, fun hne => hcopy _ hne rfl, ?_⟩
  · intro h
    unfold InvokeShortcut_id at h
    generalize toupr_ascii key = u at h ⊢
    generalize (modifierkeys &&& TB_SHIFT) = s at h
    generalize (if P.APPLE then decide (modifierkeys &&& TB_SUPER ≠ 0)
      else decide (modifierkeys &&& TB_CTRL ≠ 0)) = g at h
    simp only [] at h
    by_cases h0 : (!down || !g && special_key == TB_KEY_UNDEFINED) = true
    · rw [if_pos h0] at h; exact absurd h (by decide)
    rw [if_neg h0] at h
    by_cases h1 : u = 88
    · rw [if_pos h1] at h; exact absurd h (by decide)
    rw [if_neg h1] at h
    by_cases h2 : u = 67 ∨ special_key = TB_KEY_INSERT
    · rw [if_pos h2] at h; exact absurd h (by decide)
    rw [if_neg h2] at h
    by_cases h3 : u = 86 ∨ (special_key = TB_KEY_INSERT ∧ decide (s ≠ 0) = true)
    · rcases h3 with h3 | h3
      · exact h3
      · exact absurd (Or.inr h3.1) h2
    rw [if_neg h3] at h
    refine absurd h ?_
    apply ite_ne_of_ne
    · decide
    apply ite_ne_of_ne
    · generalize (if decide (s ≠ 0) = true then !decide (u = 90) else decide (u = 90)) = b
      cases b <;> decide
    iterate 12 (apply ite_ne_of_ne; decide)
    decide
  · intro h
    cases down
    · simp [InvokeShortcut_id] at h
    · by_cases hx : toupr_ascii key = 88
      · unfold InvokeShortcut_id at h
        rw [hx] at h
        generalize (if P.APPLE then decide (modifierkeys &&& TB_SUPER ≠ 0)
          else decide (modifierkeys &&& TB_CTRL ≠ 0)) = g at h
        simp at h
      · rw [hcopy _ hx rfl] at h
        exact absurd h (by decide)

/-- A use of C10: ctrl+`v` selects "paste", and its upper-cased key is `V`. -/
theorem C10_insert_never_paste_witness :
    InvokeShortcut_id Platform.other 118 TB_KEY_UNDEFINED TB_CTRL true = some "paste" ∧
      toupr_ascii 118 = 86 ∧
      InvokeShortcut_id Platform.other 0 TB_KEY_INSERT TB_SHIFT true = some "copy" :=
  ⟨by decide,
   (C10_insert_never_paste Platform.other 118 TB_KEY_UNDEFINED TB_CTRL true).1 (by decide),
   (C10_insert_never_paste Platform.other 0 TB_KEY_INSERT TB_SHIFT true).2.1 (by decide)⟩

/-- The guard of `InvokeShortcut` lets through exactly the key-downs that have the
shortcut modifier or a special key. -/
theorem InvokeShortcut_id_guard (P : Platform) (key : Int) (special_key : SPECIAL_KEY)
    (modifierkeys : Nat) (down : Bool)
    (h : ¬ (down = true ∧ (shortcutModifierHeld P modifierkeys ∨ special_key ≠ TB_KEY_UNDEFINED))) :
    InvokeShortcut_id P key special_key modifierkeys down = none := by
  unfold InvokeShortcut_id
  unfold shortcutModifierHeld at h
  cases hP : P.APPLE <;> cases down <;> simp_all

/-- C6 as amended: `InvokeShortcut` recognises a shortcut (selects an id, and then sends a
shortcut event or raises the unhandled-shortcut notification) only on a key-down with the
platform shortcut modifier held or with a special key given; when the modifier is not held
and the upper-cased key is no letter of the table, that special key is Insert, F3, page up
or page down. On every input that is not a key-down, or has neither the modifier nor a
special key, it returns false with no effect at all. -/
theorem C6_recognition_guard {σ : Type} (P : Platform) (lib : TBLib σ) (key : Int)
    (special_key : SPECIAL_KEY) (modifierkeys : Nat) (down : Bool) (w : σ) :
    ((InvokeShortcut_id P key special_key modifierkeys down).isSome = true →
      down = true ∧ (shortcutModifierHeld P modifierkeys ∨ special_key ≠ TB_KEY_UNDEFINED)) ∧
    ((InvokeShortcut P lib key special_key modifierkeys down w).trace ≠ [] ∨
        (InvokeShortcut P lib key special_key modifierkeys down w).ret = true →
      down = true ∧ (shortcutModifierHeld P modifierkeys ∨ special_key ≠ TB_KEY_UNDEFINED)) ∧
    ((InvokeShortcut_id P key special_key modifierkeys down).isSome = true →
      ¬ shortcutModifierHeld P modifierkeys → toupr_ascii key ∉ tableLetters →
      special_key = TB_KEY_INSERT ∨ special_key = TB_KEY_F3 ∨
        special_key = TB_KEY_PAGE_UP ∨ special_key = TB_KEY_PAGE_DOWN) ∧
    (¬ (down = true ∧ (shortcutModifierHeld P modifierkeys ∨ special_key ≠ TB_KEY_UNDEFINED)) →
      (InvokeShortcut P lib key special_key modifierkeys down w).ret = false ∧
      (InvokeShortcut P lib key special_key modifierkeys down w).trace = [] ∧
      (InvokeShortcut P lib key special_key modifierkeys down w).world = w) := by
  refine ⟨?_, ?_, ?_, ?_⟩
  · intro h
    by_contra hg
    rw [InvokeShortcut_id_guard P key special_key modifierkeys down hg] at h
    simp at h
  · intro h
    by_contra hg
    have hid := InvokeShortcut_id_guard P key special_key modifierkeys down hg
    simp [InvokeShortcut, hid] at h
  · intro h hm hl
    simp only [tableLetters, List.mem_cons, List.mem_singleton, List.not_mem_nil,
      not_or, or_false] at hl
    obtain ⟨h88, h67, h86, h65, h90, h89, h78, h79, h83, h87, h70, h71, h80⟩ := hl
    unfold InvokeShortcut_id at h
    simp only [h88, h67, h86, h65, h90, h89, h78, h79, h83, h87, h70, h71, h80,
      false_or, false_and, and_false, if_false] at h
    by_contra hsk
    simp only [not_or] at hsk
    obtain ⟨h1, h2, h3, h4⟩ := hsk
    simp [h1, h2, h3, h4] at h
  · intro hg
    have hid := InvokeShortcut_id_guard P key special_key modifierkeys down hg
    simp [InvokeShortcut, hid]

/-- A use of the amended C6: a key-up of ctrl+`c` has no effect. -/
theorem C6_recognition_guard_witness :
    (InvokeShortcut Platform.other TBLib.idle 99 TB_KEY_UNDEFINED TB_CTRL false ()).ret = false ∧
    (InvokeShortcut Platform.other TBLib.idle 99 TB_KEY_UNDEFINED TB_CTRL false ()).trace = [] ∧
    (InvokeShortcut Platform.other TBLib.idle 99 TB_KEY_UNDEFINED TB_CTRL false ()).world = () :=
  (C6_recognition_guard Platform.other TBLib.idle 99 TB_KEY_UNDEFINED TB_CTRL false ()).2.2.2
    (by decide)

/-- C6 as stated fails: the key-down of Insert alone, as `UI::HandleKey` forwards it
(key 0, no modifier), is recognised: the id "copy" is selected and, no widget holding
focus, the unhandled-shortcut notification for "copy" is raised, although the shortcut
modifier is not held and Insert is none of F3, page up, page down. -/
theorem C6_counterexample :
    ¬ shortcutModifierHeld Platform.other TB_MODIFIER_NONE ∧
    TB_KEY_INSERT ≠ TB_KEY_F3 ∧ TB_KEY_INSERT ≠ TB_KEY_PAGE_UP ∧
    TB_KEY_INSERT ≠ TB_KEY_PAGE_DOWN ∧
    InvokeShortcut_id Platform.other 0 TB_KEY_INSERT TB_MODIFIER_NONE true = some "copy" ∧
    (InvokeShortcut Platform.other TBLib.idle 0 TB_KEY_INSERT TB_MODIFIER_NONE true ()).trace =
      [Effect.SendEvent (UIEvent.E_UIUNHANDLEDSHORTCUT "copy")] := by
  refine ⟨by decide, by decide, by decide, by decide, by decide, ?_⟩
  simp [InvokeShortcut, InvokeShortcut_id, TBLib.idle, toupr_ascii, walkToDelegate]

/-! ## Delivery of a recognised shortcut: proofs -/

theorem walkToDelegate_eq_none (f : TBWidget → Bool) (l : List TBWidget)
    (h : ∀ x ∈ l, f x = false) : walkToDelegate f l = none := by
  induction l with
  | nil => rfl
  | cons a l ih =>
    have ha : f a = false := h a (List.mem_cons_self a l)
    simp only [walkToDelegate, ha, Bool.not_false, if_true]
    exact ih (fun x hx => h x (List.mem_cons_of_mem a hx))

theorem walkToDelegate_append (f : TBWidget → Bool) (pre post : List TBWidget) (t : TBWidget)
    (hpre : ∀ x ∈ pre, f x = false) (ht : f t = true) :
    walkToDelegate f (pre ++ t :: post) = some t := by
  induction pre with
  | nil => simp [walkToDelegate, ht]
  | cons a l ih =>
    have ha : f a = false := hpre a (List.mem_cons_self a l)
    simp only [List.cons_append, walkToDelegate, ha, Bool.not_false, if_true]
    exact ih (fun x hx => hpre x (List.mem_cons_of_mem a hx))

/-- The second half of `InvokeShortcut` once the target widget is known. -/
theorem InvokeShortcut_of_id {σ : Type} (P : Platform) (lib : TBLib σ) (key : Int)
    (special_key : SPECIAL_KEY) (modifierkeys : Nat) (down : Bool) (w : σ) (id : TBID)
    (hid : InvokeShortcut_id P key special_key modifierkeys down = some id) :
    (NoShortcutTarget lib w id →
      InvokeShortcut P lib key special_key modifierkeys down w =
        ⟨false, [.SendEvent (.E_UIUNHANDLEDSHORTCUT id)],
          lib.SendEvent (.E_UIUNHANDLEDSHORTCUT id) w⟩) ∧
    (∀ t, IsShortcutTarget lib w id t →
      InvokeShortcut P lib key special_key modifierkeys down w =
        if (lib.InvokeEvent t ⟨.EVENT_TYPE_SHORTCUT, modifierkeys, id⟩ w).1 = true then
          ⟨true, [.InvokeEvent t ⟨.EVENT_TYPE_SHORTCUT, modifierkeys, id⟩ true],
            (lib.InvokeEvent t ⟨.EVENT_TYPE_SHORTCUT, modifierkeys, id⟩ w).2⟩
        else
          ⟨false, [.InvokeEvent t ⟨.EVENT_TYPE_SHORTCUT, modifierkeys, id⟩ false,
              .SendEvent (.E_UIUNHANDLEDSHORTCUT id)],
            lib.SendEvent (.E_UIUNHANDLEDSHORTCUT id)
              (lib.InvokeEvent t ⟨.EVENT_TYPE_SHORTCUT, modifierkeys, id⟩ w).2⟩) := by
  constructor
  · intro hno
    have ht : (if id = "save" ∨ id = "close" then
        walkToDelegate (lib.GetDelegate w) (lib.focusPath w)
        else (lib.focusPath w).head?) = none := by
      rcases hno with h | ⟨hsc, h⟩
      · rw [h]; simp [walkToDelegate]
      · rw [if_pos hsc]; exact walkToDelegate_eq_none _ _ h
    simp only [InvokeShortcut, hid, ht]
  · intro t htgt
    have ht : (if id = "save" ∨ id = "close" then
        walkToDelegate (lib.GetDelegate w) (lib.focusPath w)
        else (lib.focusPath w).head?) = some t := by
      rcases htgt with ⟨hsc, h⟩ | ⟨hsc, pre, post, hp, hpre, hd⟩
      · rw [if_neg hsc]; exact h
      · rw [if_pos hsc, hp]; exact walkToDelegate_append _ _ _ _ hpre hd
    simp only [InvokeShortcut, hid, ht]
    cases hr : (lib.InvokeEvent t ⟨.EVENT_TYPE_SHORTCUT, modifierkeys, id⟩ w).1 <;> simp

/-- Either some widget from the focused one upward exposes a delegate, and the loop
stops at the nearest, or none does. -/
theorem walkToDelegate_cases (f : TBWidget → Bool) (l : List TBWidget) :
    (∀ x ∈ l, f x = false) ∨
    ∃ pre t post, l = pre ++ t :: post ∧ (∀ x ∈ pre, f x = false) ∧ f t = true := by
  induction l with
  | nil => left; intro x hx; cases hx
  | cons a l ih =>
    cases ha : f a
    · rcases ih with h | ⟨pre, t, post, hl, hpre, ht⟩
      · left
        intro x hx
        rcases List.mem_cons.mp hx with hx | hx
        · rw [hx]; exact ha
        · exact h x hx
      · right
        refine ⟨a :: pre, t, post, by rw [hl]; rfl, ?_, ht⟩
        intro x hx
        rcases List.mem_cons.mp hx with hx | hx
        · rw [hx]; exact ha
        · exact hpre x hx
    · right
      exact ⟨[], a, l, rfl, fun x hx => absurd hx (List.not_mem_nil x), ha⟩

/-- Every world has a target for a recognised shortcut or has none. -/
theorem shortcutTarget_cases {σ : Type} (lib : TBLib σ) (w : σ) (id : TBID) :
    NoShortcutTarget lib w id ∨ ∃ t, IsShortcutTarget lib w id t := by
  by_cases hsc : id = "save" ∨ id = "close"
  · rcases walkToDelegate_cases (lib.GetDelegate w) (lib.focusPath w) with
      h | ⟨pre, t, post, hl, hpre, ht⟩
    · exact Or.inl (Or.inr ⟨hsc, h⟩)
    · exact Or.inr ⟨t, Or.inr ⟨hsc, pre, post, hl, hpre, ht⟩⟩
  · cases hp : lib.focusPath w with
    | nil => exact Or.inl (Or.inl hp)
    | cons a l => exact Or.inr ⟨a, Or.inl ⟨hsc, by rw [hp]; rfl⟩⟩

/-- C7: on every input for which `InvokeShortcut` selects an id, (1) when there is no
target widget (no widget holds focus, or for "save"/"close" no widget from the focused one
upward exposes a delegate) it raises exactly one unhandled-shortcut notification, carrying
that id, and returns false; (2) when the target widget declines the shortcut event, whose
reference id is that id, it raises exactly one such notification after the event and
returns false; (3) when the target widget accepts the event it raises no notification and
returns true; (4) one of these cases applies. -/
theorem C7_unhandled_shortcut {σ : Type} (P : Platform) (lib : TBLib σ) (key : Int)
    (special_key : SPECIAL_KEY) (modifierkeys : Nat) (down : Bool) (w : σ) (id : TBID)
    (hid : InvokeShortcut_id P key special_key modifierkeys down = some id) :
    (NoShortcutTarget lib w id →
      (InvokeShortcut P lib key special_key modifierkeys down w).ret = false ∧
      (InvokeShortcut P lib key special_key modifierkeys down w).trace =
        [Effect.SendEvent (UIEvent.E_UIUNHANDLEDSHORTCUT id)]) ∧
    (∀ t, IsShortcutTarget lib w id t →
      (lib.InvokeEvent t ⟨.EVENT_TYPE_SHORTCUT, modifierkeys, id⟩ w).1 = false →
      (InvokeShortcut P lib key special_key modifierkeys down w).ret = false ∧
      (InvokeShortcut P lib key special_key modifierkeys down w).trace =
        [Effect.InvokeEvent t ⟨.EVENT_TYPE_SHORTCUT, modifierkeys, id⟩ false,
         Effect.SendEvent (UIEvent.E_UIUNHANDLEDSHORTCUT id)]) ∧
    (∀ t, IsShortcutTarget lib w id t →
      (lib.InvokeEvent t ⟨.EVENT_TYPE_SHORTCUT, modifierkeys, id⟩ w).1 = true →
      (InvokeShortcut P lib key special_key modifierkeys down w).ret = true ∧
      (InvokeShortcut P lib key special_key modifierkeys down w).trace =
        [Effect.InvokeEvent t ⟨.EVENT_TYPE_SHORTCUT, modifierkeys, id⟩ true]) ∧
    (NoShortcutTarget lib w id ∨ ∃ t, IsShortcutTarget lib w id t) := by
  have hS := InvokeShortcut_of_id P lib key special_key modifierkeys down w id hid
  refine ⟨?_, ?_, ?_, shortcutTarget_cases lib w id⟩
  · intro hno
    rw [hS.1 hno]
    exact ⟨rfl, rfl⟩
  · intro t ht hr
    rw [hS.2 t ht, hr]
    exact ⟨rfl, rfl⟩
  · intro t ht hr
    rw [hS.2 t ht, hr]
    exact ⟨rfl, rfl⟩

/-- A use of C7: ctrl+`s` with widget 7 focused goes to its parent 3, the nearest widget
with a delegate, which accepts it; ctrl+`c` goes to widget 7, which declines it, and the
notification carries "copy"; with no focus the notification carries "copy" as well. -/
theorem C7_unhandled_shortcut_witness :
    ((InvokeShortcut Platform.other TBLib.editor 115 TB_KEY_UNDEFINED TB_CTRL true ()).ret = true ∧
      (InvokeShortcut Platform.other TBLib.editor 115 TB_KEY_UNDEFINED TB_CTRL true ()).trace =
        [Effect.InvokeEvent 3 ⟨.EVENT_TYPE_SHORTCUT, TB_CTRL, "save"⟩ true]) ∧
    ((InvokeShortcut Platform.other TBLib.editor 99 TB_KEY_UNDEFINED TB_CTRL true ()).ret = false ∧
      (InvokeShortcut Platform.other TBLib.editor 99 TB_KEY_UNDEFINED TB_CTRL true ()).trace =
        [Effect.InvokeEvent 7 ⟨.EVENT_TYPE_SHORTCUT, TB_CTRL, "copy"⟩ false,
         Effect.SendEvent (UIEvent.E_UIUNHANDLEDSHORTCUT "copy")]) ∧
    ((InvokeShortcut Platform.other TBLib.idle 99 TB_KEY_UNDEFINED TB_CTRL true ()).ret = false ∧
      (InvokeShortcut Platform.other TBLib.idle 99 TB_KEY_UNDEFINED TB_CTRL true ()).trace =
        [Effect.SendEvent (UIEvent.E_UIUNHANDLEDSHORTCUT "copy")]) :=
  ⟨(C7_unhandled_shortcut Platform.other TBLib.editor 115 TB_KEY_UNDEFINED TB_CTRL true ()
      "save" (by decide)).2.2.1 3
      (Or.inr ⟨Or.inl rfl, [7], [1], rfl, by decide, rfl⟩) rfl,
   (C7_unhandled_shortcut Platform.other TBLib.editor 99 TB_KEY_UNDEFINED TB_CTRL true ()
      "copy" (by decide)).2.1 7 (Or.inl ⟨by decide, rfl⟩) rfl,
   (C7_unhandled_shortcut Platform.other TBLib.idle 99 TB_KEY_UNDEFINED TB_CTRL true ()
      "copy" (by decide)).1 (Or.inl rfl)⟩

/-! ## Forwarding of a key: proofs -/

theorem keyEligible_false_iff (v : UIOffscreenView) :
    (v.inputCamera_.isNone || v.inputOctree_.isNone || v.inputDrawable_.isNone) = true ↔
      keyEligible v = false := by
  unfold keyEligible
  cases v.inputCamera_ <;> cases v.inputOctree_ <;> cases v.inputDrawable_ <;> simp

/-- The loop of `UI::InvokeKey` offers the key to a prefix of the widgets in order: all but
the last offered decline, the result is the answer of the last offered, and when that one
declines too every widget has been offered the key. -/
theorem InvokeKey_loop_spec {σ : Type} (lib : TBLib σ) (ui : UI) (key : Nat)
    (special_key : SPECIAL_KEY) (modifierkeys : Nat) (keydown : Bool)
    (views : List UIOffscreenView) (w : σ) :
    ∃ (declined : List TBWidget) (last : TBWidget) (c : Bool),
      (UI.InvokeKey_loop lib ui key special_key modifierkeys keydown views w).trace =
        declined.map (fun t =>
          Effect.InvokeKey t (intOfUnsigned key) special_key modifierkeys keydown false) ++
        [Effect.InvokeKey last (intOfUnsigned key) special_key modifierkeys keydown c] ∧
      (declined ++ [last]) <+: keyWidgets ui.rootWidget_ views ∧
      (c = false → declined ++ [last] = keyWidgets ui.rootWidget_ views) ∧
      (UI.InvokeKey_loop lib ui key special_key modifierkeys keydown views w).ret = c := by
  induction views generalizing w with
  | nil =>
    refine ⟨[], ui.rootWidget_, _, rfl, ?_, fun _ => ?_, rfl⟩
    · simp [keyWidgets]
    · simp [keyWidgets]
  | cons v rest ih =>
    by_cases hv : (v.inputCamera_.isNone || v.inputOctree_.isNone || v.inputDrawable_.isNone) = true
    · have hk : keyEligible v = false := (keyEligible_false_iff v).mp hv
      obtain ⟨declined, last, c, htr, hpre, hall, hret⟩ := ih w
      refine ⟨declined, last, c, ?_, ?_, ?_, ?_⟩
      · simp only [UI.InvokeKey_loop, hv, if_true]; exact htr
      · simpa [keyWidgets, hk] using hpre
      · intro hc; simpa [keyWidgets, hk] using hall hc
      · simp only [UI.InvokeKey_loop, hv, if_true]; exact hret
    · have hk : keyEligible v = true := by
        cases h : keyEligible v
        · exact absurd ((keyEligible_false_iff v).mpr h) hv
        · rfl
      have hkw : keyWidgets ui.rootWidget_ (v :: rest) =
          v.GetInternalWidget :: keyWidgets ui.rootWidget_ rest := by
        simp [keyWidgets, hk]
      cases hr : (lib.InvokeKey v.GetInternalWidget (intOfUnsigned key) special_key
        modifierkeys keydown w).1
      · obtain ⟨declined, last, c, htr, hpre, hall, hret⟩ :=
          ih (lib.InvokeKey v.GetInternalWidget (intOfUnsigned key) special_key
            modifierkeys keydown w).2
        refine ⟨v.GetInternalWidget :: declined, last, c, ?_, ?_, ?_, ?_⟩
        · simp only [UI.InvokeKey_loop, hv, hr, if_false, Bool.false_eq_true, htr]
          rfl
        · rw [hkw]
          exact (List.prefix_cons_inj v.GetInternalWidget).mpr hpre
        · intro hc
          rw [hkw, List.cons_append, hall hc]
        · simp only [UI.InvokeKey_loop, hv, hr, if_false, Bool.false_eq_true, hret]
      · refine ⟨[], v.GetInternalWidget, true, ?_, ?_, ?_, ?_⟩
        · simp only [UI.InvokeKey_loop, hv, hr, if_false, if_true, Bool.false_eq_true]
          rfl
        · rw [hkw]
          simp
        · intro hc; cases hc
        · simp only [UI.InvokeKey_loop, hv, hr, if_false, if_true, Bool.false_eq_true]

/-- C9 as amended: for every key event on which shortcut handling does not return handled,
`UI::InvokeKey` offers the event to the internal widgets of the registered off-screen
surfaces that have a camera, an octree and a drawable, in registry iteration order
(surfaces missing one of the three are passed over), stops at the first widget that
consumes it, and gives it to the main root widget only if none of them consumed it; its
result is the answer of the last widget offered, so it is true exactly when some widget
consumed the event. -/
theorem C9_key_forwarding {σ : Type} (P : Platform) (lib : TBLib σ) (ui : UI) (key : Nat)
    (special_key : SPECIAL_KEY) (modifierkeys : Nat) (keydown : Bool) (w : σ)
    (hs : (InvokeShortcut P lib (intOfUnsigned key) special_key modifierkeys keydown w).ret =
      false) :
    ∃ (declined : List TBWidget) (last : TBWidget) (c : Bool),
      (ui.InvokeKey P lib key special_key modifierkeys keydown w).trace =
        Effect.UI_InvokeKey key special_key modifierkeys keydown ::
          ((InvokeShortcut P lib (intOfUnsigned key) special_key modifierkeys keydown w).trace ++
            (declined.map (fun t =>
              Effect.InvokeKey t (intOfUnsigned key) special_key modifierkeys keydown false) ++
            [Effect.InvokeKey last (intOfUnsigned key) special_key modifierkeys keydown c])) ∧
      (declined ++ [last]) <+: keyWidgets ui.rootWidget_ ui.offscreenViews_ ∧
      (c = false → declined ++ [last] = keyWidgets ui.rootWidget_ ui.offscreenViews_) ∧
      (ui.InvokeKey P lib key special_key modifierkeys keydown w).ret = c := by
  obtain ⟨declined, last, c, htr, hpre, hall, hret⟩ :=
    InvokeKey_loop_spec lib ui key special_key modifierkeys keydown ui.offscreenViews_
      (InvokeShortcut P lib (intOfUnsigned key) special_key modifierkeys keydown w).world
  refine ⟨declined, last, c, ?_, hpre, hall, ?_⟩
  · simp only [UI.InvokeKey, hs, Bool.false_eq_true, if_false, htr]
  · simp only [UI.InvokeKey, hs, Bool.false_eq_true, if_false, hret]

/-- A use of the amended C9: a plain `a`, which is no shortcut, sent to a router with four
surfaces. -/
theorem C9_key_forwarding_witness :
    (InvokeShortcut Platform.other TBLib.editor (intOfUnsigned 97) TB_KEY_UNDEFINED
      TB_MODIFIER_NONE true ()).ret = false ∧
    ∃ (declined : List TBWidget) (last : TBWidget) (c : Bool),
      (UI.fourSurfaces.InvokeKey Platform.other TBLib.editor 97 TB_KEY_UNDEFINED
          TB_MODIFIER_NONE true ()).trace =
        Effect.UI_InvokeKey 97 TB_KEY_UNDEFINED TB_MODIFIER_NONE true ::
          ((InvokeShortcut Platform.other TBLib.editor (intOfUnsigned 97) TB_KEY_UNDEFINED
              TB_MODIFIER_NONE true ()).trace ++
            (declined.map (fun t =>
              Effect.InvokeKey t (intOfUnsigned 97) TB_KEY_UNDEFINED TB_MODIFIER_NONE true
                false) ++
            [Effect.InvokeKey last (intOfUnsigned 97) TB_KEY_UNDEFINED TB_MODIFIER_NONE true c])) ∧
      (declined ++ [last]) <+:
        keyWidgets UI.fourSurfaces.rootWidget_ UI.fourSurfaces.offscreenViews_ ∧
      (c = false →
        declined ++ [last] =
          keyWidgets UI.fourSurfaces.rootWidget_ UI.fourSurfaces.offscreenViews_) ∧
      (UI.fourSurfaces.InvokeKey Platform.other TBLib.editor 97 TB_KEY_UNDEFINED
          TB_MODIFIER_NONE true ()).ret = c :=
  ⟨by decide,
   C9_key_forwarding Platform.other TBLib.editor UI.fourSurfaces 97 TB_KEY_UNDEFINED
     TB_MODIFIER_NONE true () (by decide)⟩

/-- C9 as stated fails: a registered surface without a camera is not offered the key. Its
internal widget 2 would consume a plain `a`, yet `UI::InvokeKey` offers the key to the main
root widget 1 alone and returns false. -/
theorem C9_counterexample :
    surfaceWithoutCamera ∈ (UI.enabled [surfaceWithoutCamera]).offscreenViews_ ∧
    (TBLib.editor.InvokeKey surfaceWithoutCamera.GetInternalWidget (intOfUnsigned 97)
      TB_KEY_UNDEFINED TB_MODIFIER_NONE true ()).1 = true ∧
    (InvokeShortcut Platform.other TBLib.editor (intOfUnsigned 97) TB_KEY_UNDEFINED
      TB_MODIFIER_NONE true ()).ret = false ∧
    ((UI.enabled [surfaceWithoutCamera]).InvokeKey Platform.other TBLib.editor 97
        TB_KEY_UNDEFINED TB_MODIFIER_NONE true ()).trace =
      [Effect.UI_InvokeKey 97 TB_KEY_UNDEFINED TB_MODIFIER_NONE true,
       Effect.InvokeKey 1 97 TB_KEY_UNDEFINED TB_MODIFIER_NONE true false] ∧
    ((UI.enabled [surfaceWithoutCamera]).InvokeKey Platform.other TBLib.editor 97
        TB_KEY_UNDEFINED TB_MODIFIER_NONE true ()).ret = false := by
  refine ⟨by simp [UI.enabled], by decide, by decide, by decide, by decide⟩

/-! ## Text input: proofs -/

/-- A rejected surface makes the loop body `continue`. -/
theorem body_eq_none_of_rejected (scene : Scene) (ui : UI) (screenPos : IntVector2)
    (v : UIOffscreenView) (h : surfaceRejected scene ui screenPos v) :
    FindOffscreenViewAtScreenPosition_body scene ui screenPos v = none := by
  unfold FindOffscreenViewAtScreenPosition_body
  rcases h with h | h | h | ⟨h1, h2⟩ | ⟨camera, octree, drawable, hc, ho, hd, hq⟩
  · rw [h]
  · rw [h]; cases v.inputCamera_ <;> rfl
  · rw [h]; cases v.inputCamera_ <;> cases v.inputOctree_ <;> rfl
  · cases v.inputCamera_ <;> cases v.inputOctree_ <;> cases v.inputDrawable_ <;>
      simp [h1, h2]
  · rw [hc, ho, hd]
    rcases hq with hq | ⟨r, rest, hq, hr⟩
    · simp only [hq]
      split_ifs <;> rfl
    · simp only [hq, hr]
      split_ifs <;> rfl

theorem loop_of_all_rejected (scene : Scene) (ui : UI) (screenPos viewPos : IntVector2)
    (views : List UIOffscreenView)
    (h : ∀ v ∈ views, surfaceRejected scene ui screenPos v) :
    FindOffscreenViewAtScreenPosition_loop scene ui screenPos viewPos views = (none, viewPos) := by
  induction views with
  | nil => rfl
  | cons a l ih =>
    simp only [FindOffscreenViewAtScreenPosition_loop,
      body_eq_none_of_rejected scene ui screenPos a (h a (List.mem_cons_self a l))]
    exact ih (fun v hv => h v (List.mem_cons_of_mem a hv))

/-- C1: for every screen coordinate and every registry in which each surface is rejected
(it is missing a camera, octree or drawable, or its non-default rectangle excludes the
point, or its ray query is empty, or the nearest hit is not its target drawable),
`UI::FindOffscreenViewAtScreenPosition` returns no surface and
`UI::GetInternalWidgetAndProjectedPositionFor` returns the main root widget with the output
position equal to the input screen coordinate. -/
theorem C1_fallback_to_root (scene : Scene) (ui : UI) (screenPos viewPos : IntVector2)
    (h : ∀ v ∈ ui.offscreenViews_, surfaceRejected scene ui screenPos v) :
    (ui.FindOffscreenViewAtScreenPosition scene screenPos viewPos).1 = none ∧
    ui.GetInternalWidgetAndProjectedPositionFor scene screenPos viewPos =
      (ui.rootWidget_, screenPos) := by
  have hf : ui.FindOffscreenViewAtScreenPosition scene screenPos viewPos = (none, viewPos) :=
    loop_of_all_rejected scene ui screenPos viewPos ui.offscreenViews_ h
  constructor
  · rw [hf]
  · simp only [UI.GetInternalWidgetAndProjectedPositionFor, hf]

/-- A use of C1: the point (500, 300) with three surfaces registered, none of which
accepts it. -/
theorem C1_fallback_to_root_witness :
    UI.threeSurfaces.GetInternalWidgetAndProjectedPositionFor (Scene.flat ⟨1 / 2, 1 / 2⟩)
      ⟨500, 300⟩ ⟨0, 0⟩ = (1, ⟨500, 300⟩) :=
  (C1_fallback_to_root (Scene.flat ⟨1 / 2, 1 / 2⟩) UI.threeSurfaces ⟨500, 300⟩ ⟨0, 0⟩
    (by
      intro v hv
      simp only [UI.threeSurfaces, UI.enabled, List.mem_cons, List.mem_singleton,
        List.not_mem_nil, or_false] at hv
      rcases hv with rfl | rfl | rfl
      · exact Or.inl rfl
      · exact Or.inr (Or.inr (Or.inr (Or.inl ⟨by decide, by decide⟩)))
      · exact Or.inr (Or.inr (Or.inr (Or.inr ⟨1, 1, 9, rfl, rfl, rfl,
          Or.inr ⟨⟨1, ⟨1 / 2, 1 / 2⟩⟩, [], rfl, by decide⟩⟩))))).2

/-- What `UI::HandleTouchBegin` does when its guard lets the event through; the statics of
`UI::HandleMouseButtonDown` are left alone. -/
theorem HandleTouchBegin_handled (ui : UI) (engine : Engine) (touchId x y : Int)
    (st : Statics) (hi : ui.inputDisabled_ = false) (hc : ui.consoleVisible_ = false) :
    ∃ call, (ui.HandleTouchBegin engine touchId x y st).1 = some call ∧
      call.click_count =
        (if engine.GetElapsedTime * 1000 < st.touchBegin.last_time + 600 then
          wrapInt (st.touchBegin.counter + 1) else 1) ∧
      (ui.HandleTouchBegin engine touchId x y st).2.touchBegin =
        ⟨engine.GetElapsedTime * 1000, call.click_count⟩ ∧
      (ui.HandleTouchBegin engine touchId x y st).2.mouseButtonDown = st.mouseButtonDown := by
  unfold UI.HandleTouchBegin
  simp only [hi, hc, Bool.or_self, Bool.false_eq_true, if_false]
  exact ⟨_, rfl, rfl, rfl, trivial⟩

/-- The call and the new statics of `UI::HandleMouseButtonDown` depend on the statics only
through its own pair, and it leaves the pair of `UI::HandleTouchBegin` alone. -/
theorem HandleMouseButtonDown_congr (P : Platform) (ui : UI) (engine : Engine) (button : Nat)
    (st st2 : Statics) (h : st.mouseButtonDown = st2.mouseButtonDown) :
    (ui.HandleMouseButtonDown P engine button st).1 =
      (ui.HandleMouseButtonDown P engine button st2).1 ∧
    (ui.HandleMouseButtonDown P engine button st).2.mouseButtonDown =
      (ui.HandleMouseButtonDown P engine button st2).2.mouseButtonDown ∧
    (ui.HandleMouseButtonDown P engine button st).2.touchBegin = st.touchBegin := by
  unfold UI.HandleMouseButtonDown
  by_cases hg : (ui.inputDisabled_ || ui.consoleVisible_) = true
  · rw [if_pos hg, if_pos hg]
    exact ⟨rfl, h, rfl⟩
  · rw [if_neg hg, if_neg hg, h]
    exact ⟨rfl, rfl, rfl⟩

/-- The call and the new statics of `UI::HandleTouchBegin` depend on the statics only
through its own pair, and it leaves the pair of `UI::HandleMouseButtonDown` alone. -/
theorem HandleTouchBegin_congr (ui : UI) (engine : Engine) (touchId x y : Int)
    (st st2 : Statics) (h : st.touchBegin = st2.touchBegin) :
    (ui.HandleTouchBegin engine touchId x y st).1 =
      (ui.HandleTouchBegin engine touchId x y st2).1 ∧
    (ui.HandleTouchBegin engine touchId x y st).2.touchBegin =
      (ui.HandleTouchBegin engine touchId x y st2).2.touchBegin ∧
    (ui.HandleTouchBegin engine touchId x y st).2.mouseButtonDown = st.mouseButtonDown := by
  unfold UI.HandleTouchBegin
  by_cases hg : (ui.inputDisabled_ || ui.consoleVisible_) = true
  · rw [if_pos hg, if_pos hg]
    exact ⟨rfl, h, rfl⟩
  · rw [if_neg hg, if_neg hg, h]
    exact ⟨rfl, rfl, rfl⟩

theorem deliveries_filter_mouse (P : Platform) (evs : List PointerEvent) :
    ∀ st st2 : Statics, st.mouseButtonDown = st2.mouseButtonDown →
      (deliveries P st evs).filter (fun d => d.1.isMouse) =
        deliveries P st2 (evs.filter PointerEvent.isMouse) := by
  induction evs with
  | nil => intro st st2 _; rfl
  | cons e es ih =>
    intro st st2 h
    cases e with
    | mouseButtonDown ui engine button =>
      have hc := HandleMouseButtonDown_congr P ui engine button st st2 h
      simp only [deliveries, PointerEvent.handle, PointerEvent.isMouse, List.filter_cons,
        if_true]
      rw [hc.1]
      exact congrArg _ (ih _ _ hc.2.1)
    | touchBegin ui engine touchId x y =>
      have hc := HandleTouchBegin_congr ui engine touchId x y st st rfl
      simp only [deliveries, PointerEvent.handle, PointerEvent.isMouse, List.filter_cons,
        Bool.false_eq_true, if_false]
      exact ih _ _ (hc.2.2.trans h)

theorem deliveries_filter_touch (P : Platform) (evs : List PointerEvent) :
    ∀ st st2 : Statics, st.touchBegin = st2.touchBegin →
      (deliveries P st evs).filter (fun d => d.1.isTouch) =
        deliveries P st2 (evs.filter PointerEvent.isTouch) := by
  induction evs with
  | nil => intro st st2 _; rfl
  | cons e es ih =>
    intro st st2 h
    cases e with
    | mouseButtonDown ui engine button =>
      have hc := HandleMouseButtonDown_congr P ui engine button st st rfl
      simp only [deliveries, PointerEvent.handle, PointerEvent.isTouch, List.filter_cons,
        Bool.false_eq_true, if_false]
      exact ih _ _ (hc.2.2.trans h)
    | touchBegin ui engine touchId x y =>
      have hc := HandleTouchBegin_congr ui engine touchId x y st st2 h
      simp only [deliveries, PointerEvent.handle, PointerEvent.isTouch, List.filter_cons,
        if_true]
      rw [hc.1]
      exact congrArg _ (ih _ _ hc.2.1)

/-- C4 as amended: the click counter and its last-event timestamp are kept separately by
the two handlers. Mouse button-down events, whatever the button, share one pair and
touch-begin events, whatever the touch, share another: for every interleaved sequence of
button-down and touch-begin events, the calls delivered with the button-down events are
those delivered when the touch-begin events are left out, and the calls delivered with the
touch-begin events are those delivered when the button-down events are left out; each
handler leaves the pair of the other unchanged. So the click count delivered with an event
is determined by the elapsed time since the preceding handled event of the same kind. -/
theorem C4_separate_counters (P : Platform) (st : Statics) (evs : List PointerEvent) :
    (deliveries P st evs).filter (fun d => d.1.isMouse) =
      deliveries P st (evs.filter PointerEvent.isMouse) ∧
    (deliveries P st evs).filter (fun d => d.1.isTouch) =
      deliveries P st (evs.filter PointerEvent.isTouch) ∧
    (∀ (ui : UI) (engine : Engine) (button : Nat),
      (ui.HandleMouseButtonDown P engine button st).2.touchBegin = st.touchBegin) ∧
    (∀ (ui : UI) (engine : Engine) (touchId x y : Int),
      (ui.HandleTouchBegin engine touchId x y st).2.mouseButtonDown = st.mouseButtonDown) :=
  ⟨deliveries_filter_mouse P evs st st rfl, deliveries_filter_touch P evs st st rfl,
   fun ui engine button => (HandleMouseButtonDown_congr P ui engine button st st rfl).2.2,
   fun ui engine touchId x y => (HandleTouchBegin_congr ui engine touchId x y st st rfl).2.2⟩

/-- C4 as stated fails: from the initial statics, a mouse button-down at 1000 ms is delivered
with count 1, and a touch-begin 100 ms later, at 1100 ms, is delivered with count 1 as
well, not 2: the touch handler compares with its own stored time, still 0. -/
theorem C4_counterexample :
    ((UI.enabled []).HandleMouseButtonDown Platform.other (Engine.atTime 1) 1 Statics.initial).1 =
      some (PointerCall.InvokePointerDown 1 10 10 1 TB_MODIFIER_NONE false none) ∧
    ((UI.enabled []).HandleTouchBegin (Engine.atTime (11 / 10)) 0 10 10
      ((UI.enabled []).HandleMouseButtonDown Platform.other (Engine.atTime 1) 1
        Statics.initial).2).1 =
      some (PointerCall.InvokePointerDown 1 10 10 1 TB_MODIFIER_NONE true (some 0)) ∧
    (Engine.atTime (11 / 10)).GetElapsedTime * 1000 - (Engine.atTime 1).GetElapsedTime * 1000 <
      600 := by
  refine ⟨?_, ?_, ?_⟩
  · norm_num [UI.HandleMouseButtonDown, UI.enabled, Engine.atTime, Statics.initial,
      UI.GetInternalWidgetAndProjectedPositionFor, UI.FindOffscreenViewAtScreenPosition,
      FindOffscreenViewAtScreenPosition_loop, GetModifierKeys, MOUSEB_RIGHT, Platform.other,
      TB_MODIFIER_NONE, QUAL_ALT, QUAL_CTRL, QUAL_SHIFT]
  · norm_num [UI.HandleMouseButtonDown, UI.HandleTouchBegin, UI.enabled, Engine.atTime,
      Statics.initial, UI.GetInternalWidgetAndProjectedPositionFor,
      UI.FindOffscreenViewAtScreenPosition, FindOffscreenViewAtScreenPosition_loop,
      GetModifierKeys, MOUSEB_RIGHT, Platform.other, TB_MODIFIER_NONE, QUAL_ALT, QUAL_CTRL,
      QUAL_SHIFT]
  · norm_num [Engine.atTime]

end Atomic
